import Mathlib

/-!
# rffmpeg-go: the administrative CLI, the configuration loader and the datastore constructor

A shallow embedding of

* `cmd/rffmpeg-go/control.go` (`addHost`, `removeHost`, `status`, `clear`),
* `cmd/rffmpeg-go/config.go` (`LoadConfig`),
* `processor/datastore.go` (`newDatastore`, `sqlSelectVersion`),

followed by the properties proved about them.

Conventions of the embedding:

* Go `int` values are `Int`; `time.Time` values are `Nat` instants.
* A Go `error` is `Option GoError` (`none` is `nil`); a `(T, error)` result is
  `Except GoError T` when the value is only meaningful without an error.
* A run-time panic (here always an index out of range) is an explicit outcome.
* The `processor.Processor` methods called by `control.go` live outside these three
  files.  The CLI functions are therefore embedded over an arbitrary implementation
  (`Processor σ`), and `storeProcessor` is the implementation described by the
  specification, with a fault plan saying which store operations fail.
-/

set_option linter.dupNamespace false

namespace Rffmpeg

/-! ## Go values -/

/-- Go error values built by `fmt.Errorf`: a plain message, or a message wrapping a cause
with the verb `%w` (the text before `: %w` is `msg`). -/
inductive GoError where
  | errorf (msg : String)
  | wrapf (msg : String) (cause : GoError)
  deriving DecidableEq

/-- Run-time panics of the Go runtime that the embedded code can raise. -/
inductive Panic where
  | indexOutOfRange (index : Int) (length : Nat)
  deriving DecidableEq

/-- What a call of a Go function over a store of type `σ` ends in: it returns a value, or it
panics.  Both carry the store as it is at that moment. -/
inductive Outcome (σ α : Type) where
  | returned (val : α) (st : σ)
  | panicked (p : Panic) (st : σ)
  deriving DecidableEq

/-- The store at the end of a call. -/
def Outcome.store {σ α : Type} : Outcome σ α → σ
  | .returned _ st => st
  | .panicked _ st => st

/-- The value returned by a call, `none` when it panicked. -/
def Outcome.value {σ α : Type} : Outcome σ α → Option α
  | .returned val _ => some val
  | .panicked _ _ => none

/-- Formatting of an integer with the verb `%d` of `fmt.Sprintf`: the decimal digits, with a
leading minus sign for a negative number. -/
def fmtD (n : Int) : String := toString n

/-! ## Rows of the three tables (`processor.Host`, `processor.Process`, `processor.State`) -/

/-- Row of the host table, with the fields `control.go` reads and writes. -/
structure Host where
  Id : Int
  Servername : String
  Hostname : String
  Weight : Int
  Created : Nat
  deriving DecidableEq

/-- Row of the process table. -/
structure Process where
  Id : Int
  HostId : Int
  ProcessId : Int
  Cmd : String
  Created : Nat
  deriving DecidableEq

/-- Row of the state table. -/
structure State where
  Id : Int
  HostId : Int
  State : String
  Created : Nat
  deriving DecidableEq

/-! ## The processor interface used by `control.go` -/

/-- Methods of `*processor.Processor` that `control.go` calls, over a store of type `σ`.
Reads return a value or an error; writes return an error or `nil` and the new store. -/
structure Processor (σ : Type) where
  AddHost : σ → Host → Option GoError × σ
  RemoveHost : σ → Host → Option GoError × σ
  GetHosts : σ → Except GoError (List Host)
  GetHostsIdByField : σ → String → String → Except GoError (List Host)
  GetProcessesFromHost : σ → Host → Except GoError (List Process)
  GetStatesFromHost : σ → Host → Except GoError (List State)
  RemoveProcessesByField : σ → String → Process → Option GoError × σ
  RemoveStatesByField : σ → String → State → Option GoError × σ
  RemoveProcesses : σ → Option GoError × σ
  RemoveStates : σ → Option GoError × σ

/-! ## `control.go` -/

/-- Arguments of the `add` command (`type Add struct`). -/
structure Add where
  Name : String
  Weight : Int
  Host : String
  deriving DecidableEq

/-- Arguments of the `remove` command (`type Remove struct`). -/
structure Remove where
  Name : String
  deriving DecidableEq

/-- Arguments of the `clear` command (`type Clear struct`). -/
structure Clear where
  Name : String
  deriving DecidableEq

/-- The `Add` value the command-line parser hands to `addHost`, following the struct tags of
`Add`: `Name` is optional (zero value `""`), `Weight` is optional with `default:"1"`, `Host`
is the required positional argument. -/
def Add.ofFlags (name : Option String) (weight : Option Int) (host : String) : Add :=
  { Name := name.getD "", Weight := weight.getD 1, Host := host }

/-- The `processor.Host` literal that `addHost` passes to `proc.AddHost` (control.go 35-44):
the name falls back to the host when empty; `Id` keeps its zero value; `now` is
`time.Now()`. -/
def addHostRecord (now : Nat) (info : Add) : Host :=
  let name := if info.Name = "" then info.Host else info.Name
  { Id := 0, Servername := name, Hostname := info.Host, Weight := info.Weight, Created := now }

/-- Embedding of `addHost` (control.go 34-45). -/
def addHost {σ : Type} (proc : Processor σ) (st : σ) (now : Nat) (info : Add) :
    Option GoError × σ :=
  proc.AddHost st (addHostRecord now info)

/-- Embedding of `removeHost` (control.go 47-51): only `Servername` is set in the literal. -/
def removeHost {σ : Type} (proc : Processor σ) (st : σ) (info : Remove) : Option GoError × σ :=
  proc.RemoveHost st
    { Id := 0, Servername := info.Name, Hostname := "", Weight := 0, Created := 0 }

/-- One line of the status table (`type StatusMapping struct`). -/
structure StatusMapping where
  Id : String
  Servername : String
  Hostname : String
  Weight : String
  CurrentState : String
  Commands : List Process
  deriving DecidableEq

/-- The entry `status` appends for the local pseudo-host (control.go 163-170). -/
def fallbackMapping (fallbackProcesses : List Process) : StatusMapping :=
  { Id := "0", Servername := "localhost (fallback)", Hostname := "localhost", Weight := "0",
    CurrentState := "fallback", Commands := fallbackProcesses }

/-- The latest state of a host as `status` computes it from the list returned by
`GetStatesFromHost` (control.go 180-185). -/
def currentStateOf : List State → String
  | [] => "idle"
  | s :: _ => s.State

/-- Body of the loop over the hosts in `status` (control.go 174-201): the entry of one host,
or the error of the first read that fails. -/
def hostMapping {σ : Type} (proc : Processor σ) (st : σ) (host : Host) :
    Except GoError StatusMapping :=
  match proc.GetStatesFromHost st host with
  | .error err => .error err
  | .ok states =>
    match proc.GetProcessesFromHost st host with
    | .error err => .error err
    | .ok processes =>
      .ok { Id := fmtD host.Id, Servername := host.Servername, Hostname := host.Hostname,
            Weight := fmtD host.Weight, CurrentState := currentStateOf states,
            Commands := processes }

/-- The loop `for _, host := range hosts` of `status` (control.go 173-202), appending to
`statusMappings` and returning at the first error. -/
def statusLoop {σ : Type} (proc : Processor σ) (st : σ) :
    List Host → List StatusMapping → Except GoError (List StatusMapping)
  | [], statusMappings => .ok statusMappings
  | host :: rest, statusMappings =>
    match hostMapping proc st host with
    | .error err => .error err
    | .ok entry => statusLoop proc st rest (statusMappings ++ [entry])

/-- Embedding of `status` (control.go 145-209).  The result is the error returned, or the
list `statusMappings` handed to `printStatus` (after which `status` returns `nil`). -/
def status {σ : Type} (proc : Processor σ) (st : σ) : Except GoError (List StatusMapping) :=
  match proc.GetHosts st with
  | .error err => .error err
  | .ok hosts =>
    match proc.GetProcessesFromHost st
        { Id := 0, Servername := "", Hostname := "", Weight := 0, Created := 0 } with
    | .error err => .error err
    | .ok fallbackProcesses =>
      let statusMappings : List StatusMapping :=
        if fallbackProcesses.length > 0 then [fallbackMapping fallbackProcesses] else []
      statusLoop proc st hosts statusMappings

/-- Embedding of `clear` (control.go 211-226).  The two results are the error of the process
deletion and the error of the state deletion.  `hosts[0]` panics on an empty slice, and it is
evaluated before `RemoveProcessesByField` is called. -/
def clear {σ : Type} (proc : Processor σ) (st : σ) (info : Clear) :
    Outcome σ (Option GoError × Option GoError) :=
  if info.Name ≠ "" then
    match proc.GetHostsIdByField st "servername" info.Name with
    | .error err => .returned (some err, some err) st
    | .ok hosts =>
      match hosts with
      | [] => .panicked (.indexOutOfRange 0 0) st
      | first :: _ =>
        let r1 := proc.RemoveProcessesByField st "host_id"
          { Id := 0, HostId := first.Id, ProcessId := 0, Cmd := "", Created := 0 }
        let r2 := proc.RemoveStatesByField r1.2 "host_id"
          { Id := 0, HostId := first.Id, State := "", Created := 0 }
        .returned (r1.1, r2.1) r2.2
  else
    let r1 := proc.RemoveProcesses st
    let r2 := proc.RemoveStates r1.2
    .returned (r1.1, r2.1) r2.2

/-! ## The store behind the processor -/

/-- Store operations, one per `Processor` method. -/
inductive Op where
  | addHost
  | removeHost
  | getHosts
  | getHostsIdByField
  | getProcessesFromHost
  | getStatesFromHost
  | removeProcessesByField
  | removeStatesByField
  | removeProcesses
  | removeStates
  deriving DecidableEq

/-- Contents of the persistent store: the three tables, rows in insertion order, and a journal
of the write calls received so far (kept only to observe which calls a CLI function makes). -/
structure Db where
  hosts : List Host
  processes : List Process
  states : List State
  journal : List Op
  deriving DecidableEq

/-- A fault plan: the error with which a store operation fails, `none` when it succeeds. -/
abbrev Faults := Op → Option GoError

/-- The fault plan in which every store operation succeeds. -/
def noFaults : Faults := fun _ => none

/-- The `DuplicateHost` error of the specification. -/
def errDuplicateHost : GoError := .errorf "DuplicateHost"

/-- The `NotFound` error of the specification. -/
def errNotFound : GoError := .errorf "NotFound"

/-- The error of a lookup or deletion on a column the table does not have. -/
def errUnknownField : GoError := .errorf "unknown field"

/-- Text of a host column, for the filtered lookup. -/
def hostField (field : String) : Option (Host → String) :=
  if field = "id" then some (fun h => fmtD h.Id)
  else if field = "servername" then some (fun h => h.Servername)
  else if field = "hostname" then some (fun h => h.Hostname)
  else if field = "weight" then some (fun h => fmtD h.Weight)
  else none

/-- Whether two process rows agree on a column. -/
def processFieldEq (field : String) : Option (Process → Process → Bool) :=
  if field = "id" then some (fun a b => decide (a.Id = b.Id))
  else if field = "host_id" then some (fun a b => decide (a.HostId = b.HostId))
  else if field = "process_id" then some (fun a b => decide (a.ProcessId = b.ProcessId))
  else if field = "cmd" then some (fun a b => decide (a.Cmd = b.Cmd))
  else none

/-- Whether two state rows agree on a column. -/
def stateFieldEq (field : String) : Option (State → State → Bool) :=
  if field = "id" then some (fun a b => decide (a.Id = b.Id))
  else if field = "host_id" then some (fun a b => decide (a.HostId = b.HostId))
  else if field = "state" then some (fun a b => decide (a.State = b.State))
  else none

/-- The identity given to the next inserted host: one more than the largest in the table. -/
def nextHostId (hosts : List Host) : Int :=
  hosts.foldl (fun m h => max m h.Id) 0 + 1

/-- Modelled from the spec: `processor.Processor` and the SQL store behind it are not part of
the three source files.  This is the store of sections 3, 4.1, 4.3 and 6 of the
specification, with the errors of section 7: `AddHost` fails with DuplicateHost on an
existing servername and otherwise inserts, the weight defaulting to 1 if unset; `RemoveHost`
fails with NotFound if absent, deletes the host row and does not cascade; `GetHosts` lists
hosts by Id ascending; `GetHostsIdByField` is the generic filtered lookup, a host lookup miss
being the NotFound error returned to the caller; `GetProcessesFromHost` gives the Process
rows with that HostId; `GetStatesFromHost` gives the State rows of the host ordered by Created
descending; the four `Remove...` methods are the bulk deletions ClearByHost and ClearAll.
An operation that the fault plan makes fail returns its error and leaves the tables as they
are (single statements are atomic). -/
def storeProcessor (faults : Faults) : Processor Db where
  AddHost db host :=
    let db1 := { db with journal := db.journal ++ [Op.addHost] }
    match faults Op.addHost with
    | some err => (some err, db1)
    | none =>
      if db.hosts.any (fun h => decide (h.Servername = host.Servername)) then
        (some errDuplicateHost, db1)
      else
        let row : Host :=
          { host with Id := nextHostId db.hosts,
                      Weight := if host.Weight = 0 then 1 else host.Weight }
        (none, { db1 with hosts := db.hosts ++ [row] })
  RemoveHost db host :=
    let db1 := { db with journal := db.journal ++ [Op.removeHost] }
    match faults Op.removeHost with
    | some err => (some err, db1)
    | none =>
      if db.hosts.any (fun h => decide (h.Servername = host.Servername)) then
        (none, { db1 with
          hosts := db.hosts.filter (fun h => decide (h.Servername ≠ host.Servername)) })
      else
        (some errNotFound, db1)
  GetHosts db :=
    match faults Op.getHosts with
    | some err => .error err
    | none => .ok (db.hosts.insertionSort (fun a b => a.Id ≤ b.Id))
  GetHostsIdByField db fieldType field :=
    match faults Op.getHostsIdByField with
    | some err => .error err
    | none =>
      match hostField fieldType with
      | none => .error errUnknownField
      | some column =>
        match db.hosts.filter (fun h => decide (column h = field)) with
        | [] => .error errNotFound
        | first :: rest => .ok (first :: rest)
  GetProcessesFromHost db host :=
    match faults Op.getProcessesFromHost with
    | some err => .error err
    | none => .ok (db.processes.filter (fun p => decide (p.HostId = host.Id)))
  GetStatesFromHost db host :=
    match faults Op.getStatesFromHost with
    | some err => .error err
    | none =>
      .ok ((db.states.filter (fun s => decide (s.HostId = host.Id))).insertionSort
        (fun a b => b.Created ≤ a.Created))
  RemoveProcessesByField db fieldType process :=
    let db1 := { db with journal := db.journal ++ [Op.removeProcessesByField] }
    match faults Op.removeProcessesByField with
    | some err => (some err, db1)
    | none =>
      match processFieldEq fieldType with
      | none => (some errUnknownField, db1)
      | some same => (none, { db1 with processes := db.processes.filter (fun p => !same p process) })
  RemoveStatesByField db fieldType state :=
    let db1 := { db with journal := db.journal ++ [Op.removeStatesByField] }
    match faults Op.removeStatesByField with
    | some err => (some err, db1)
    | none =>
      match stateFieldEq fieldType with
      | none => (some errUnknownField, db1)
      | some same => (none, { db1 with states := db.states.filter (fun s => !same s state) })
  RemoveProcesses db :=
    let db1 := { db with journal := db.journal ++ [Op.removeProcesses] }
    match faults Op.removeProcesses with
    | some err => (some err, db1)
    | none => (none, { db1 with processes := [] })
  RemoveStates db :=
    let db1 := { db with journal := db.journal ++ [Op.removeStates] }
    match faults Op.removeStates with
    | some err => (some err, db1)
    | none => (none, { db1 with states := [] })

/-- The schema constraint `Servername unique` on the host table: two host rows with the same
Servername are the same row. -/
def ServernameUnique (db : Db) : Prop :=
  ∀ a ∈ db.hosts, ∀ b ∈ db.hosts, a.Servername = b.Servername → a = b

instance (db : Db) : Decidable (ServernameUnique db) := by
  unfold ServernameUnique; infer_instance

/-! ## `processor/datastore.go` -/

/-- The two embedded migration directories (`migrationsSqlite`, `migrationsPostgres`). -/
inductive EmbedFS where
  | migrationsSqlite
  | migrationsPostgres
  deriving DecidableEq

/-- The `*migrate.Migrator` handed to `newDatastore`, over a migrator state of type `μ`:
`Migrate` returns its error and the state after the run. -/
structure Migrator (μ : Type) where
  Migrate : μ → EmbedFS → String → Option GoError × μ

/-- The struct `datastore`: the embedded `*sql.DB` (`none` is the nil pointer) and the type. -/
structure datastore (δ : Type) where
  DB : Option δ
  dbType : String
  deriving DecidableEq

/-- Embedding of `newDatastore` (datastore.go 25-45).  The first component is the returned
pointer (`none` is nil), the second the returned error; the migrator state is threaded. -/
def newDatastore {μ δ : Type} (db : Option δ) (dbType : String) (mg : Migrator μ) (m : μ) :
    (Option (datastore δ) × Option GoError) × μ :=
  if dbType = "sqlite" then
    match mg.Migrate m EmbedFS.migrationsSqlite "processor" with
    | (some err, m1) => ((none, some (GoError.wrapf "migrate: " err)), m1)
    | (none, m1) => ((some { DB := db, dbType := dbType }, none), m1)
  else if dbType = "postgres" then
    match mg.Migrate m EmbedFS.migrationsPostgres "processor" with
    | (some err, m1) => ((none, some (GoError.wrapf "migrate: " err)), m1)
    | (none, m1) => ((some { DB := db, dbType := dbType }, none), m1)
  else
    ((some { DB := none, dbType := "" }, some (GoError.errorf "incorrect database type")), m)

/-- Embedding of `sqlSelectVersion` (datastore.go 47-56). -/
def sqlSelectVersion (dbType : String) : Except GoError String :=
  if dbType = "sqlite" then .ok "sqlite"
  else if dbType = "postgres" then .ok "SELECT version()"
  else .error (GoError.errorf "incorrect database type")

/-- A migrator that only counts its runs: every run succeeds. -/
def countingMigrator : Migrator Nat where
  Migrate n _ _ := (none, n + 1)

/-- A migrator every run of which fails with `err`, counting the runs. -/
def failingMigrator (err : GoError) : Migrator Nat where
  Migrate n _ _ := (some err, n + 1)

/-! ## `cmd/rffmpeg-go/config.go` -/

/-- Section `PROGRAM` of the configuration. -/
structure Program where
  Pid : Int
  Log : String
  Debug : Bool
  deriving DecidableEq

/-- Section `DIRECTORIES` of the configuration. -/
structure Directories where
  Persist : String
  Owner : String
  Group : String
  deriving DecidableEq

/-- Section `REMOTE` of the configuration. -/
structure Remote where
  User : String
  Persist : Int
  Args : List String
  deriving DecidableEq

/-- Section `COMMANDS` of the configuration. -/
structure Commands where
  Ssh : String
  Pre : List String
  Ffmpeg : String
  Ffprobe : String
  FallbackFfmpeg : String
  FallbackFfprobe : String
  SpecialFlags : List String
  deriving DecidableEq

/-- Section `DATABASE` of the configuration; `DbType` is the Go field `Type`. -/
structure Database where
  DbType : String
  Path : String
  MigratorDir : String
  Host : String
  Port : Int
  Name : String
  Username : String
  Password : String
  deriving DecidableEq

/-- The struct `Config`. -/
structure Config where
  Program : Program
  Directories : Directories
  Remote : Remote
  Commands : Commands
  Database : Database
  deriving DecidableEq

/-- The literal `config := Config{...}` at the start of `LoadConfig` (config.go 60-95);
fields not named there have their zero value. -/
def defaultConfig : Config :=
  { Program := { Pid := 0, Log := "/var/log/jellyfin", Debug := false }
    Directories := { Persist := "/run/shm", Owner := "jellyfin", Group := "jellyfin" }
    Remote := { User := "jellyfin", Persist := 300,
                Args := ["-i", "/var/lib/rffmpeg/.ssh/id_ed25519"] }
    Commands := { Ssh := "/usr/bin/ssh", Pre := [],
                  Ffmpeg := "/usr/lib/jellyfin-ffmpeg/ffmpeg",
                  Ffprobe := "/usr/lib/jellyfin-ffmpeg/ffprobe",
                  FallbackFfmpeg := "/usr/lib/jellyfin-ffmpeg/ffmpeg",
                  FallbackFfprobe := "/usr/lib/jellyfin-ffmpeg/ffprobe",
                  SpecialFlags := [] }
    Database := { DbType := "sqlite", Path := "/var/lib/rffmpeg/db", MigratorDir := "",
                  Host := "localhost", Port := 5432, Name := "rffmpeg",
                  Username := "postgres", Password := "" } }

/-- The slice `defaultSpecialFlags` (config.go 167-176). -/
def defaultSpecialFlags : List String :=
  ["-version", "-encoders", "-decoders", "-hwaccels", "-filters", "-h", "-muxers", "-fp_format"]

/-- The date stamp `datetime` (config.go 119-131): `%d%d%d` of year, month and day, with a
`0` put before a month below 10 and before a day below 10. -/
def datetime (year month day : Int) : String :=
  if month < 10 then
    if day < 10 then fmtD year ++ "0" ++ fmtD month ++ "0" ++ fmtD day
    else fmtD year ++ "0" ++ fmtD month ++ fmtD day
  else
    if day < 10 then fmtD year ++ fmtD month ++ "0" ++ fmtD day
    else fmtD year ++ fmtD month ++ fmtD day

/-- The test `s[len(s)-1] == '/'` (config.go 132 and 138).  On the empty string the index is
`-1` and the Go runtime panics.  The byte `/` occurs in UTF-8 text only as the character `/`,
so the last byte is `/` exactly when the last character is. -/
def lastIsSlash (s : String) : Except Panic Bool :=
  match s.data.getLast? with
  | none => .error (Panic.indexOutOfRange (-1) 0)
  | some c => .ok (c == '/')

/-- The log file name step (config.go 132-136) applied to the configured `Program.Log`. -/
def logFileName (log stamp : String) : Except Panic String :=
  match lastIsSlash log with
  | .error p => .error p
  | .ok true => .ok (log ++ "log_rffmpeg_" ++ stamp ++ ".log")
  | .ok false => .ok (log ++ "/log_rffmpeg_" ++ stamp ++ ".log")

/-- The database file name step (config.go 138-142) applied to the configured
`Database.Path`. -/
def databaseFileName (path : String) : Except Panic String :=
  match lastIsSlash path with
  | .error p => .error p
  | .ok true => .ok (path ++ "rffmpeg.db")
  | .ok false => .ok (path ++ "/rffmpeg.db")

/-- The statement `config.Commands.SpecialFlags = append(..., defaultSpecialFlags...)`
(config.go 177). -/
def appendSpecialFlags (config : Config) : Config :=
  { config with
    Commands := { config.Commands with
      SpecialFlags := config.Commands.SpecialFlags ++ defaultSpecialFlags } }

/-- Result of `viper.ReadInConfig()`: no error, a `ConfigFileNotFoundError`, or another
error. -/
inductive ReadResult where
  | ok
  | configFileNotFound
  | failed (err : GoError)
  deriving DecidableEq

/-- What `LoadConfig` gets from outside: the result of reading the configuration file, the
effect of `viper.Unmarshal(&config)` on the defaults, the process id, the current date, and
the file-system calls `filepath.Dir`, `os.MkdirAll` and `filepath.Abs`. -/
structure ConfigEnv where
  readInConfig : ReadResult
  unmarshal : Config → Config × Option GoError
  getpid : Int
  year : Int
  month : Int
  day : Int
  dir : String → String
  mkdirAll : String → Option GoError
  abs : String → Except GoError String

/-- The database switch of `LoadConfig` (config.go 144-165) followed by the special flags
(config.go 167-179). -/
def loadDatabase (env : ConfigEnv) (config : Config) : Config × Option GoError :=
  if config.Database.DbType = "sqlite" then
    match env.mkdirAll (env.dir config.Database.Path) with
    | some err => (config, some (GoError.wrapf "failed creating database directory: " err))
    | none =>
      match env.abs config.Database.Path with
      | .error err => (config, some (GoError.wrapf "failed loading sqlite file: " err))
      | .ok dbpath =>
        (appendSpecialFlags
          { config with
            Database := { config.Database with
              Path := dbpath ++ "?_foreign_keys=on", MigratorDir := "migrations/sqlite" } },
         none)
  else if config.Database.DbType = "postgres" then
    (appendSpecialFlags
      { config with
        Database := { config.Database with
          Path := "host=" ++ config.Database.Host ++ " port=" ++ fmtD config.Database.Port ++
            " user=" ++ config.Database.Username ++ " password=" ++ config.Database.Password ++
            " dbname=" ++ config.Database.Name ++ " sslmode=disable",
          MigratorDir := "migrations/postgres" } },
     none)
  else
    (config, some (GoError.errorf "database type isn't supported"))

/-- Embedding of `LoadConfig` (config.go 59-180): the returned configuration and error, or
the panic raised on the way. -/
def LoadConfig (env : ConfigEnv) : Except Panic (Config × Option GoError) :=
  let config := defaultConfig
  match env.readInConfig with
  | ReadResult.failed err => .ok (config, some (GoError.wrapf "failed parsing config: " err))
  | _ =>
    match env.unmarshal config with
    | (config, some err) =>
      .ok (config, some (GoError.wrapf "failed unmarshaling config: " err))
    | (config, none) =>
      let config := { config with Program := { config.Program with Pid := env.getpid } }
      match logFileName config.Program.Log (datetime env.year env.month env.day) with
      | .error p => .error p
      | .ok log =>
        let config := { config with Program := { config.Program with Log := log } }
        match databaseFileName config.Database.Path with
        | .error p => .error p
        | .ok path =>
          let config := { config with Database := { config.Database with Path := path } }
          .ok (loadDatabase env config)

/-- The two digits of a number below 100, the first being `0` below 10. -/
def twoDigits (n : Nat) : List Char :=
  [Nat.digitChar (n / 10), Nat.digitChar (n % 10)]

/-- The four digits of a number below 10000. -/
def fourDigits (n : Nat) : List Char :=
  [Nat.digitChar (n / 1000), Nat.digitChar (n / 100 % 10), Nat.digitChar (n / 10 % 10),
   Nat.digitChar (n % 10)]

/-- An environment in which the configuration file only sets the special flags to `flags`
and every file-system call succeeds, on the given date. -/
def sampleEnv (flags : List String) (year month day : Int) : ConfigEnv :=
  { readInConfig := ReadResult.ok
    unmarshal := fun c => ({ c with Commands := { c.Commands with SpecialFlags := flags } }, none)
    getpid := 4242
    year := year
    month := month
    day := day
    dir := fun s => s
    mkdirAll := fun _ => none
    abs := fun s => .ok s }

/-- A store with two hosts, three running processes (one on the local pseudo-host) and three
state rows. -/
def sampleDb : Db :=
  { hosts := [{ Id := 1, Servername := "alpha", Hostname := "10.0.0.1", Weight := 1, Created := 5 },
              { Id := 2, Servername := "beta", Hostname := "10.0.0.2", Weight := 2, Created := 6 }]
    processes := [{ Id := 1, HostId := 1, ProcessId := 100, Cmd := "ffmpeg -i a", Created := 7 },
                  { Id := 2, HostId := 2, ProcessId := 101, Cmd := "ffprobe b", Created := 8 },
                  { Id := 3, HostId := 0, ProcessId := 102, Cmd := "ffmpeg -i c", Created := 9 }]
    states := [{ Id := 1, HostId := 1, State := "bad", Created := 3 },
               { Id := 2, HostId := 1, State := "active", Created := 4 },
               { Id := 3, HostId := 2, State := "bad", Created := 1 }]
    journal := [] }

/-- The fault plan in which only `RemoveProcesses` fails. -/
def removeProcessesFails : Faults := fun op =>
  if op = Op.removeProcesses then some (GoError.errorf "database is locked") else none

/-- The environment `sampleEnv` with a configuration file that sets the log directory to the
empty string. -/
def emptyLogEnv : ConfigEnv :=
  { sampleEnv [] 2026 11 4 with
    unmarshal := fun c => ({ c with Program := { c.Program with Log := "" } }, none) }

/-- The entry `status` builds for a host over the store `db`: the host's columns, the State
of the first of its State rows ordered by Created descending (`idle` without rows), and its
Process rows. -/
def storeEntry (db : Db) (host : Host) : StatusMapping :=
  { Id := fmtD host.Id, Servername := host.Servername, Hostname := host.Hostname,
    Weight := fmtD host.Weight,
    CurrentState := currentStateOf
      ((db.states.filter (fun s => decide (s.HostId = host.Id))).insertionSort
        (fun a b => b.Created ≤ a.Created)),
    Commands := db.processes.filter (fun p => decide (p.HostId = host.Id)) }


/-! # Properties -/

/-! ## `clear` -/

theorem hostField_servername : hostField "servername" = some (fun h => h.Servername) := by
  simp [hostField]

theorem processFieldEq_host_id :
    processFieldEq "host_id" = some (fun a b => decide (a.HostId = b.HostId)) := by
  simp [processFieldEq]

theorem stateFieldEq_host_id :
    stateFieldEq "host_id" = some (fun a b => decide (a.HostId = b.HostId)) := by
  simp [stateFieldEq]

/-- The lookup by servername finds the hosts of that name, in table order. -/
theorem getHostsIdByField_servername (faults : Faults) (db : Db) (name : String)
    (first : Host) (rest : List Host) (hf : faults Op.getHostsIdByField = none)
    (hfl : db.hosts.filter (fun h => decide (h.Servername = name)) = first :: rest) :
    (storeProcessor faults).GetHostsIdByField db "servername" name = .ok (first :: rest) := by
  simp [storeProcessor, hf, hostField_servername, hfl]

/-- The lookup by a servername that no host carries is the NotFound error. -/
theorem getHostsIdByField_miss (faults : Faults) (db : Db) (name : String)
    (hf : faults Op.getHostsIdByField = none) (hno : ∀ h ∈ db.hosts, h.Servername ≠ name) :
    (storeProcessor faults).GetHostsIdByField db "servername" name = .error errNotFound := by
  have hfl : db.hosts.filter (fun h => decide (h.Servername = name)) = [] := by
    rw [List.filter_eq_nil_iff]
    intro h hh
    simpa using hno h hh
  simp [storeProcessor, hf, hostField_servername, hfl]

/-- The lookup of the store never yields an empty list without an error. -/
theorem getHostsIdByField_ne_empty (faults : Faults) (db : Db) (fieldType field : String) :
    (storeProcessor faults).GetHostsIdByField db fieldType field ≠ .ok [] := by
  simp only [storeProcessor]
  cases faults Op.getHostsIdByField with
  | some err => simp
  | none =>
    cases hostField fieldType with
    | none => simp
    | some column =>
      cases hfl : db.hosts.filter (fun h => decide (column h = field)) with
      | nil => simp [hfl]
      | cons first rest => simp [hfl]

theorem removeProcessesByField_host_id (faults : Faults) (db : Db) (p : Process)
    (hf : faults Op.removeProcessesByField = none) :
    (storeProcessor faults).RemoveProcessesByField db "host_id" p =
      (none, { db with journal := db.journal ++ [Op.removeProcessesByField],
                       processes := db.processes.filter (fun q => decide (q.HostId ≠ p.HostId)) }) := by
  simp [storeProcessor, hf, processFieldEq_host_id]

theorem removeStatesByField_host_id (faults : Faults) (db : Db) (s : State)
    (hf : faults Op.removeStatesByField = none) :
    (storeProcessor faults).RemoveStatesByField db "host_id" s =
      (none, { db with journal := db.journal ++ [Op.removeStatesByField],
                       states := db.states.filter (fun q => decide (q.HostId ≠ s.HostId)) }) := by
  simp [storeProcessor, hf, stateFieldEq_host_id]

/-- C1: for a non-empty name that is the Servername of a registered host, in a store that
obeys the unique-Servername constraint and whose lookup and two deletions succeed, `clear`
returns no error and deletes exactly the Process rows and the State rows of that host: the
tables after the call are the old ones without the rows whose HostId is the host's Id, in
the old order, and the host table is the old one. -/
theorem clear_named_host (faults : Faults) (db : Db) (name : String) (host : Host)
    (hname : name ≠ "") (hreg : host ∈ db.hosts) (hsn : host.Servername = name)
    (huniq : ServernameUnique db)
    (hf1 : faults Op.getHostsIdByField = none) (hf2 : faults Op.removeProcessesByField = none)
    (hf3 : faults Op.removeStatesByField = none) :
    ∃ db2, clear (storeProcessor faults) db { Name := name } = Outcome.returned (none, none) db2 ∧
      db2.hosts = db.hosts ∧
      db2.processes = db.processes.filter (fun p => decide (p.HostId ≠ host.Id)) ∧
      db2.states = db.states.filter (fun s => decide (s.HostId ≠ host.Id)) ∧
      (∀ p, p ∈ db2.processes ↔ p ∈ db.processes ∧ p.HostId ≠ host.Id) ∧
      (∀ s, s ∈ db2.states ↔ s ∈ db.states ∧ s.HostId ≠ host.Id) := by
  have hmem : host ∈ db.hosts.filter (fun h => decide (h.Servername = name)) := by
    simp [List.mem_filter, hreg, hsn]
  cases hfl : db.hosts.filter (fun h => decide (h.Servername = name)) with
  | nil => rw [hfl] at hmem; cases hmem
  | cons first rest =>
    have hlook := getHostsIdByField_servername faults db name first rest hf1 hfl
    have hfirst : first ∈ db.hosts.filter (fun h => decide (h.Servername = name)) := by
      rw [hfl]; exact List.mem_cons_self _ _
    rw [List.mem_filter] at hfirst
    have hfn : first.Servername = name := by simpa using hfirst.2
    have heq : first = host := huniq first hfirst.1 host hreg (by rw [hfn, hsn])
    subst heq
    subst hsn
    have hrun : clear (storeProcessor faults) db { Name := first.Servername } =
        Outcome.returned (none, none)
          { hosts := db.hosts
            processes := db.processes.filter (fun p => decide (p.HostId ≠ first.Id))
            states := db.states.filter (fun s => decide (s.HostId ≠ first.Id))
            journal := db.journal ++ [Op.removeProcessesByField] ++ [Op.removeStatesByField] } := by
      unfold clear
      rw [if_pos hname]
      simp only [hlook, hfl]
      rw [removeProcessesByField_host_id faults _ _ hf2]
      simp only
      rw [removeStatesByField_host_id faults _ _ hf3]
    refine ⟨_, hrun, rfl, rfl, rfl, ?_, ?_⟩
    · intro p; simp [List.mem_filter]
    · intro s; simp [List.mem_filter]

/-- Witness for C1: clearing the host `alpha` (Id 1) of `sampleDb`. -/
theorem clear_named_host_witness :
    ∃ db2, clear (storeProcessor noFaults) sampleDb { Name := "alpha" } =
        Outcome.returned (none, none) db2 ∧
      db2.hosts = sampleDb.hosts ∧
      db2.processes = sampleDb.processes.filter (fun p => decide (p.HostId ≠ 1)) ∧
      db2.states = sampleDb.states.filter (fun s => decide (s.HostId ≠ 1)) ∧
      (∀ p, p ∈ db2.processes ↔ p ∈ sampleDb.processes ∧ p.HostId ≠ 1) ∧
      (∀ s, s ∈ db2.states ↔ s ∈ sampleDb.states ∧ s.HostId ≠ 1) :=
  clear_named_host noFaults sampleDb "alpha"
    { Id := 1, Servername := "alpha", Hostname := "10.0.0.1", Weight := 1, Created := 5 }
    (by decide) (by decide) rfl (by decide) rfl rfl rfl

/-- C2: `clear` with an empty name calls `RemoveProcesses` and then `RemoveStates`, whatever
the first returns, and gives back their two errors; the host table is unchanged; every Process
row is gone when `RemoveProcesses` succeeds and every State row is gone when `RemoveStates`
succeeds, also when `RemoveProcesses` failed. -/
theorem clear_all (faults : Faults) (db : Db) :
    (clear (storeProcessor faults) db { Name := "" }).value =
      some (faults Op.removeProcesses, faults Op.removeStates) ∧
    (clear (storeProcessor faults) db { Name := "" }).store.journal =
      db.journal ++ [Op.removeProcesses, Op.removeStates] ∧
    (clear (storeProcessor faults) db { Name := "" }).store.hosts = db.hosts ∧
    (faults Op.removeProcesses = none →
      (clear (storeProcessor faults) db { Name := "" }).store.processes = []) ∧
    (faults Op.removeStates = none →
      (clear (storeProcessor faults) db { Name := "" }).store.states = []) := by
  cases h1 : faults Op.removeProcesses <;> cases h2 : faults Op.removeStates <;>
    simp [clear, storeProcessor, h1, h2, Outcome.value, Outcome.store]

/-- Witness for C2: the State rows of `sampleDb` are removed although `RemoveProcesses`
fails, and the Process rows are removed when nothing fails. -/
theorem clear_all_witness :
    (clear (storeProcessor removeProcessesFails) sampleDb { Name := "" }).store.states = [] ∧
    (clear (storeProcessor noFaults) sampleDb { Name := "" }).store.processes = [] :=
  ⟨(clear_all removeProcessesFails sampleDb).2.2.2.2 rfl,
   (clear_all noFaults sampleDb).2.2.2.1 rfl⟩

/-- For any processor: `clear` has no length check of its own, so a lookup that returned an
empty list without an error would make it panic on `hosts[0]`, before any deletion. -/
theorem clear_lookup_empty_panics {σ : Type} (proc : Processor σ) (st : σ) (name : String)
    (hname : name ≠ "") (hlook : proc.GetHostsIdByField st "servername" name = .ok []) :
    clear proc st { Name := name } = Outcome.panicked (Panic.indexOutOfRange 0 0) st := by
  unfold clear
  rw [if_pos hname]
  simp only [hlook]

/-- For any processor: an error of the lookup is returned twice and nothing is deleted. -/
theorem clear_lookup_error {σ : Type} (proc : Processor σ) (st : σ) (name : String)
    (err : GoError) (hname : name ≠ "")
    (hlook : proc.GetHostsIdByField st "servername" name = .error err) :
    clear proc st { Name := name } = Outcome.returned (some err, some err) st := by
  unfold clear
  rw [if_pos hname]
  simp only [hlook]

/-- C3: over the store, `clear` with a non-empty name that no registered host carries returns
an error to its caller as both results and deletes nothing: the store, journal included, is
as before, so no deletion was called.  The error is NotFound when the lookup itself is not
made to fail.  The lookup never yields an empty list without an error, and `clear` does not
panic: it never indexes the first element of an empty lookup result. -/
theorem clear_unregistered_not_found (faults : Faults) (db : Db) (name : String)
    (hname : name ≠ "") (hno : ∀ h ∈ db.hosts, h.Servername ≠ name) :
    (faults Op.getHostsIdByField = none →
      clear (storeProcessor faults) db { Name := name } =
        Outcome.returned (some errNotFound, some errNotFound) db) ∧
    (∃ err, clear (storeProcessor faults) db { Name := name } =
        Outcome.returned (some err, some err) db) ∧
    (clear (storeProcessor faults) db { Name := name }).store.processes = db.processes ∧
    (clear (storeProcessor faults) db { Name := name }).store.states = db.states ∧
    (storeProcessor faults).GetHostsIdByField db "servername" name ≠ .ok [] ∧
    (∀ p st, clear (storeProcessor faults) db { Name := name } ≠ Outcome.panicked p st) := by
  have hnf : faults Op.getHostsIdByField = none →
      clear (storeProcessor faults) db { Name := name } =
        Outcome.returned (some errNotFound, some errNotFound) db := fun hf =>
    clear_lookup_error _ _ _ _ hname (getHostsIdByField_miss faults db name hf hno)
  have hret : ∃ err, clear (storeProcessor faults) db { Name := name } =
      Outcome.returned (some err, some err) db := by
    cases hf : faults Op.getHostsIdByField with
    | none => exact ⟨errNotFound, hnf hf⟩
    | some err =>
      refine ⟨err, clear_lookup_error _ _ _ _ hname ?_⟩
      simp [storeProcessor, hf]
  obtain ⟨err, herr⟩ := hret
  refine ⟨hnf, ⟨err, herr⟩, ?_, ?_, getHostsIdByField_ne_empty faults db _ _, ?_⟩
  · rw [herr]; rfl
  · rw [herr]; rfl
  · intro p st h
    rw [herr] at h
    cases h

/-- Witness for C3: no host of `sampleDb` is called `ghost`. -/
theorem clear_unregistered_not_found_witness :
    (∀ h ∈ sampleDb.hosts, h.Servername ≠ "ghost") ∧
    clear (storeProcessor noFaults) sampleDb { Name := "ghost" } =
      Outcome.returned (some errNotFound, some errNotFound) sampleDb :=
  ⟨by decide,
   (clear_unregistered_not_found noFaults sampleDb "ghost" (by decide) (by decide)).1 rfl⟩

/-! ## `addHost` -/

/-- C4 (amended): `addHost` submits to the registry the record `addHostRecord`, whose Weight
is the Weight of the request unchanged: positive when the requested weight is positive, zero
or negative when the requested weight is; it is 1 when the weight flag was omitted, by the
default of the command-line parser. -/
theorem addHost_weight (now : Nat) (info : Add) :
    (∀ (σ : Type) (proc : Processor σ) (st : σ),
      addHost proc st now info = proc.AddHost st (addHostRecord now info)) ∧
    (addHostRecord now info).Weight = info.Weight ∧
    (0 < info.Weight → 0 < (addHostRecord now info).Weight) ∧
    (info.Weight ≤ 0 → (addHostRecord now info).Weight ≤ 0) ∧
    (∀ name host, (addHostRecord now (Add.ofFlags name none host)).Weight = 1) := by
  refine ⟨fun _ _ _ => rfl, rfl, fun h => h, fun h => h, fun _ _ => rfl⟩

/-- Witness for C4 (amended): a request with weight 3 and one with weight -2. -/
theorem addHost_weight_witness :
    0 < (addHostRecord 0 { Name := "alpha", Weight := 3, Host := "10.0.0.1" }).Weight ∧
    (addHostRecord 0 { Name := "alpha", Weight := -2, Host := "10.0.0.1" }).Weight ≤ 0 :=
  ⟨(addHost_weight 0 { Name := "alpha", Weight := 3, Host := "10.0.0.1" }).2.2.1 (by decide),
   (addHost_weight 0 { Name := "alpha", Weight := -2, Host := "10.0.0.1" }).2.2.2.1 (by decide)⟩

/-- C4 (counterexample): the record submitted for a request whose Weight is zero has Weight
0, which is neither positive nor 1. -/
theorem addHost_weight_zero_submitted :
    (addHostRecord 0 { Name := "alpha", Weight := 0, Host := "10.0.0.1" }).Weight = 0 ∧
    ¬ 0 < (addHostRecord 0 { Name := "alpha", Weight := 0, Host := "10.0.0.1" }).Weight ∧
    (addHostRecord 0 { Name := "alpha", Weight := 0, Host := "10.0.0.1" }).Weight ≠ 1 := by
  decide

/-! ## `status` -/

/-- Over the store, the loop body of `status` yields `storeEntry` when the reads succeed. -/
theorem hostMapping_store (faults : Faults) (db : Db) (host : Host)
    (h2 : faults Op.getProcessesFromHost = none) (h3 : faults Op.getStatesFromHost = none) :
    hostMapping (storeProcessor faults) db host =
      .ok { Id := fmtD host.Id, Servername := host.Servername, Hostname := host.Hostname,
            Weight := fmtD host.Weight,
            CurrentState := currentStateOf
              ((db.states.filter (fun s => decide (s.HostId = host.Id))).insertionSort
                (fun a b => b.Created ≤ a.Created)),
            Commands := db.processes.filter (fun p => decide (p.HostId = host.Id)) } := by
  simp [hostMapping, storeProcessor, h2, h3]

/-- The loop of `status` appends one entry per host, in order, when every body succeeds. -/
theorem statusLoop_ok {σ : Type} (proc : Processor σ) (st : σ) (entry : Host → StatusMapping) :
    ∀ (hosts : List Host) (acc : List StatusMapping),
      (∀ host ∈ hosts, hostMapping proc st host = .ok (entry host)) →
      statusLoop proc st hosts acc = .ok (acc ++ hosts.map entry)
  | [], acc, _ => by simp [statusLoop]
  | host :: rest, acc, h => by
    have hh := h host (List.mem_cons_self _ _)
    have ih := statusLoop_ok proc st entry rest (acc ++ [entry host])
      (fun x hx => h x (List.mem_cons_of_mem _ hx))
    simp [statusLoop, hh, ih]

/-- The list `status` builds over the store when the reads succeed. -/
theorem status_store (faults : Faults) (db : Db) (h1 : faults Op.getHosts = none)
    (h2 : faults Op.getProcessesFromHost = none) (h3 : faults Op.getStatesFromHost = none) :
    status (storeProcessor faults) db =
      .ok ((if (db.processes.filter (fun p => decide (p.HostId = 0))).length > 0
              then [fallbackMapping (db.processes.filter (fun p => decide (p.HostId = 0)))]
              else []) ++
            (db.hosts.insertionSort (fun a b => a.Id ≤ b.Id)).map (storeEntry db)) := by
  have hloop := statusLoop_ok (storeProcessor faults) db (storeEntry db)
    (db.hosts.insertionSort (fun a b => a.Id ≤ b.Id))
    (if (db.processes.filter (fun p => decide (p.HostId = 0))).length > 0
      then [fallbackMapping (db.processes.filter (fun p => decide (p.HostId = 0)))] else [])
    (fun host _ => hostMapping_store faults db host h2 h3)
  have hget : (storeProcessor faults).GetHosts db =
      .ok (db.hosts.insertionSort (fun a b => a.Id ≤ b.Id)) := by
    simp [storeProcessor, h1]
  have hfb : (storeProcessor faults).GetProcessesFromHost db
      { Id := 0, Servername := "", Hostname := "", Weight := 0, Created := 0 } =
      .ok (db.processes.filter (fun p => decide (p.HostId = 0))) := by
    simp [storeProcessor, h2]
  unfold status
  simp only [hget, hfb]
  exact hloop

/-- The first row of a non-empty list of State rows ordered by Created descending is a row
of the list with the largest Created. -/
theorem latest_first (l : List State) (x : State) (hx : x ∈ l) :
    ∃ top rest, l.insertionSort (fun a b => b.Created ≤ a.Created) = top :: rest ∧ top ∈ l ∧
      ∀ y ∈ l, y.Created ≤ top.Created := by
  haveI : IsTotal State (fun a b => b.Created ≤ a.Created) := ⟨fun a b => Nat.le_total _ _⟩
  haveI : IsTrans State (fun a b => b.Created ≤ a.Created) :=
    ⟨fun _ _ _ hab hbc => Nat.le_trans hbc hab⟩
  have hperm := List.perm_insertionSort (fun a b : State => b.Created ≤ a.Created) l
  have hsorted := List.sorted_insertionSort (fun a b : State => b.Created ≤ a.Created) l
  cases hs : l.insertionSort (fun a b => b.Created ≤ a.Created) with
  | nil =>
    rw [hs] at hperm
    have := hperm.symm.eq_nil
    subst this
    cases hx
  | cons top rest =>
    rw [hs] at hperm hsorted
    refine ⟨top, rest, rfl, hperm.subset (List.mem_cons_self _ _), ?_⟩
    intro y hy
    have hy2 : y ∈ top :: rest := hperm.symm.subset hy
    rcases List.mem_cons.1 hy2 with h | h
    · rw [h]
    · exact List.rel_of_sorted_cons hsorted y h

/-- C5: when the reads succeed, the entry that `status` reports for a registered host has
CurrentState `idle` if the host has no State rows, and otherwise the State of the first row
of the list `GetStatesFromHost` returns, which is a row of the host with the largest Created;
so, State rows never storing the implicit `idle`, CurrentState is `idle` if and only if the
host has no State rows. -/
theorem status_current_state (faults : Faults) (db : Db) (host : Host) (hreg : host ∈ db.hosts)
    (h1 : faults Op.getHosts = none) (h2 : faults Op.getProcessesFromHost = none)
    (h3 : faults Op.getStatesFromHost = none) :
    ∃ ms entry, status (storeProcessor faults) db = .ok ms ∧ entry ∈ ms ∧
      hostMapping (storeProcessor faults) db host = .ok entry ∧
      entry.Id = fmtD host.Id ∧ entry.Servername = host.Servername ∧
      ((∀ s ∈ db.states, s.HostId ≠ host.Id) → entry.CurrentState = "idle") ∧
      ((∃ s ∈ db.states, s.HostId = host.Id) →
        ∃ top rest, (storeProcessor faults).GetStatesFromHost db host = .ok (top :: rest) ∧
          top ∈ db.states ∧ top.HostId = host.Id ∧
          (∀ s ∈ db.states, s.HostId = host.Id → s.Created ≤ top.Created) ∧
          entry.CurrentState = top.State) ∧
      ((∀ s ∈ db.states, s.State ≠ "idle") →
        (entry.CurrentState = "idle" ↔ ∀ s ∈ db.states, s.HostId ≠ host.Id)) := by
  have hnone : (∀ s ∈ db.states, s.HostId ≠ host.Id) → (storeEntry db host).CurrentState = "idle" := by
    intro hno
    have : db.states.filter (fun s => decide (s.HostId = host.Id)) = [] := by
      rw [List.filter_eq_nil_iff]
      intro s hs
      simpa using hno s hs
    simp [storeEntry, this, currentStateOf]
  have hsome : (∃ s ∈ db.states, s.HostId = host.Id) →
      ∃ top rest, (storeProcessor faults).GetStatesFromHost db host = .ok (top :: rest) ∧
        top ∈ db.states ∧ top.HostId = host.Id ∧
        (∀ s ∈ db.states, s.HostId = host.Id → s.Created ≤ top.Created) ∧
        (storeEntry db host).CurrentState = top.State := by
    rintro ⟨s, hs, hsid⟩
    have hmem : s ∈ db.states.filter (fun s => decide (s.HostId = host.Id)) := by
      simp [List.mem_filter, hs, hsid]
    obtain ⟨top, rest, hsort, htop, hmax⟩ := latest_first _ s hmem
    rw [List.mem_filter] at htop
    refine ⟨top, rest, ?_, htop.1, by simpa using htop.2, ?_, ?_⟩
    · simp [storeProcessor, h3, hsort]
    · intro s2 hs2 hid2
      exact hmax s2 (by simp [List.mem_filter, hs2, hid2])
    · simp [storeEntry, hsort, currentStateOf]
  refine ⟨_, storeEntry db host, status_store faults db h1 h2 h3, ?_,
    hostMapping_store faults db host h2 h3, rfl, rfl, hnone, hsome, ?_⟩
  · apply List.mem_append_right
    apply List.mem_map_of_mem
    exact (List.perm_insertionSort _ _).symm.subset hreg
  · intro hmodel
    constructor
    · intro hidle s hs hsid
      obtain ⟨top, _, _, htop, _, _, hcur⟩ := hsome ⟨s, hs, hsid⟩
      exact hmodel top htop (by rw [← hcur, hidle])
    · exact hnone

/-- Witness for C5: host `alpha` of `sampleDb` has State rows, none of them storing `idle`. -/
theorem status_current_state_witness :
    (∀ s ∈ sampleDb.states, s.State ≠ "idle") ∧
    ∃ ms entry, status (storeProcessor noFaults) sampleDb = .ok ms ∧ entry ∈ ms ∧
      entry.Id = "1" ∧
      (entry.CurrentState = "idle" ↔ ∀ s ∈ sampleDb.states, s.HostId ≠ 1) := by
  obtain ⟨ms, entry, hst, hmem, _, hid, _, _, _, hiff⟩ := status_current_state noFaults sampleDb
    { Id := 1, Servername := "alpha", Hostname := "10.0.0.1", Weight := 1, Created := 5 }
    (by decide) rfl rfl rfl
  exact ⟨by decide, ms, entry, hst, hmem, hid, hiff (by decide)⟩

/-- C7: when the reads succeed, the list `status` builds is the entry of the local pseudo-host
(Id `0`, state `fallback`, carrying exactly the Process rows with HostId 0) if and only if
some Process row has HostId 0, placed first, followed by one entry per registered host in the
order of `GetHosts`, each with the Id, Servername, Hostname and Weight of the host and exactly
the Process rows whose HostId is the Id of the host. -/
theorem status_entries (faults : Faults) (db : Db) (h1 : faults Op.getHosts = none)
    (h2 : faults Op.getProcessesFromHost = none) (h3 : faults Op.getStatesFromHost = none) :
    ∃ hosts ms, (storeProcessor faults).GetHosts db = .ok hosts ∧ hosts.Perm db.hosts ∧
      status (storeProcessor faults) db = .ok ms ∧
      ((∃ p ∈ db.processes, p.HostId = 0) →
        ms = { Id := "0", Servername := "localhost (fallback)", Hostname := "localhost",
               Weight := "0", CurrentState := "fallback",
               Commands := db.processes.filter (fun p => decide (p.HostId = 0)) } ::
             hosts.map (storeEntry db)) ∧
      ((∀ p ∈ db.processes, p.HostId ≠ 0) → ms = hosts.map (storeEntry db)) ∧
      (∀ host : Host,
        (storeEntry db host).Id = fmtD host.Id ∧
        (storeEntry db host).Servername = host.Servername ∧
        (storeEntry db host).Hostname = host.Hostname ∧
        (storeEntry db host).Weight = fmtD host.Weight ∧
        (storeEntry db host).Commands =
          db.processes.filter (fun p => decide (p.HostId = host.Id))) := by
  refine ⟨db.hosts.insertionSort (fun a b => a.Id ≤ b.Id), _, ?_,
    List.perm_insertionSort _ _, status_store faults db h1 h2 h3, ?_, ?_,
    fun _ => ⟨rfl, rfl, rfl, rfl, rfl⟩⟩
  · simp [storeProcessor, h1]
  · rintro ⟨p, hp, hp0⟩
    have hmem : p ∈ db.processes.filter (fun p => decide (p.HostId = 0)) := by
      simp [List.mem_filter, hp, hp0]
    have hpos : (db.processes.filter (fun p => decide (p.HostId = 0))).length > 0 :=
      List.length_pos_of_mem hmem
    rw [if_pos hpos]
    rfl
  · intro hno
    have hnil : db.processes.filter (fun p => decide (p.HostId = 0)) = [] := by
      rw [List.filter_eq_nil_iff]
      intro p hp
      simpa using hno p hp
    simp [hnil]

/-- Witness for C7: `sampleDb` has a process on the pseudo-host, so three entries are built. -/
theorem status_entries_witness :
    ∃ hosts ms, (storeProcessor noFaults).GetHosts sampleDb = .ok hosts ∧
      status (storeProcessor noFaults) sampleDb = .ok ms ∧ ms.length = 3 := by
  obtain ⟨hosts, ms, hget, _, hst, hfb, _, _⟩ := status_entries noFaults sampleDb rfl rfl rfl
  refine ⟨hosts, ms, hget, hst, ?_⟩
  have hh : hosts = sampleDb.hosts := by
    have : (storeProcessor noFaults).GetHosts sampleDb = .ok sampleDb.hosts := rfl
    rw [this] at hget
    exact (Except.ok.inj hget).symm
  rw [hfb ⟨_, List.mem_cons_of_mem _ (List.mem_cons_of_mem _ (List.mem_cons_self _ _)), rfl⟩, hh]
  rfl

/-! ## `newDatastore` -/

/-- C6: `newDatastore` returns a datastore with a nil error only for the type `sqlite` or
`postgres` and after the migration of that type ran without an error (and then it does, the
datastore holding the handle and the type); when that migration fails it returns a nil
datastore and the migration error wrapped; for any other type it returns the error
`incorrect database type` and the migrator is left as it was. -/
theorem newDatastore_result {μ δ : Type} (db : Option δ) (dbType : String) (mg : Migrator μ)
    (m : μ) :
    (∀ ds m2, newDatastore db dbType mg m = ((some ds, none), m2) →
      ds = { DB := db, dbType := dbType } ∧
      ((dbType = "sqlite" ∧ mg.Migrate m EmbedFS.migrationsSqlite "processor" = (none, m2)) ∨
       (dbType = "postgres" ∧
         mg.Migrate m EmbedFS.migrationsPostgres "processor" = (none, m2)))) ∧
    (∀ m2, dbType = "sqlite" → mg.Migrate m EmbedFS.migrationsSqlite "processor" = (none, m2) →
      newDatastore db dbType mg m = ((some { DB := db, dbType := dbType }, none), m2)) ∧
    (∀ m2, dbType = "postgres" →
      mg.Migrate m EmbedFS.migrationsPostgres "processor" = (none, m2) →
      newDatastore db dbType mg m = ((some { DB := db, dbType := dbType }, none), m2)) ∧
    (∀ err m2, dbType = "sqlite" →
      mg.Migrate m EmbedFS.migrationsSqlite "processor" = (some err, m2) →
      newDatastore db dbType mg m = ((none, some (GoError.wrapf "migrate: " err)), m2)) ∧
    (∀ err m2, dbType = "postgres" →
      mg.Migrate m EmbedFS.migrationsPostgres "processor" = (some err, m2) →
      newDatastore db dbType mg m = ((none, some (GoError.wrapf "migrate: " err)), m2)) ∧
    (dbType ≠ "sqlite" → dbType ≠ "postgres" →
      newDatastore db dbType mg m =
        ((some { DB := none, dbType := "" }, some (GoError.errorf "incorrect database type")),
         m)) := by
  have hps : ("postgres" : String) ≠ "sqlite" := by decide
  refine ⟨?_, ?_, ?_, ?_, ?_, ?_⟩
  · intro ds m2 h
    unfold newDatastore at h
    by_cases c1 : dbType = "sqlite"
    · rw [if_pos c1] at h
      rcases hm : mg.Migrate m EmbedFS.migrationsSqlite "processor" with ⟨e, m1⟩
      rw [hm] at h
      cases e with
      | some err => simp at h
      | none =>
        simp only [Prod.mk.injEq, Option.some.injEq, and_true] at h
        exact ⟨h.1.symm, Or.inl ⟨c1, by rw [h.2]⟩⟩
    · rw [if_neg c1] at h
      by_cases c2 : dbType = "postgres"
      · rw [if_pos c2] at h
        rcases hm : mg.Migrate m EmbedFS.migrationsPostgres "processor" with ⟨e, m1⟩
        rw [hm] at h
        cases e with
        | some err => simp at h
        | none =>
          simp only [Prod.mk.injEq, Option.some.injEq, and_true] at h
          exact ⟨h.1.symm, Or.inr ⟨c2, by rw [h.2]⟩⟩
      · rw [if_neg c2] at h
        simp at h
  · intro m2 c1 hm
    unfold newDatastore
    rw [if_pos c1, hm]
  · intro m2 c2 hm
    have c1 : dbType ≠ "sqlite" := by rw [c2]; exact hps
    unfold newDatastore
    rw [if_neg c1, if_pos c2, hm]
  · intro err m2 c1 hm
    unfold newDatastore
    rw [if_pos c1, hm]
  · intro err m2 c2 hm
    have c1 : dbType ≠ "sqlite" := by rw [c2]; exact hps
    unfold newDatastore
    rw [if_neg c1, if_pos c2, hm]
  · intro c1 c2
    unfold newDatastore
    rw [if_neg c1, if_neg c2]

/-- Witness for C6: one run for `sqlite`, one failed run for `postgres`, no run for `mysql`. -/
theorem newDatastore_result_witness :
    newDatastore (some 7) "sqlite" countingMigrator 0 =
      ((some { DB := some 7, dbType := "sqlite" }, none), 1) ∧
    newDatastore (some 7) "postgres" (failingMigrator (GoError.errorf "dirty database")) 0 =
      ((none, some (GoError.wrapf "migrate: " (GoError.errorf "dirty database"))), 1) ∧
    newDatastore (some 7) "mysql" countingMigrator 0 =
      ((some { DB := none, dbType := "" }, some (GoError.errorf "incorrect database type")), 0) :=
  ⟨(newDatastore_result (some 7) "sqlite" countingMigrator 0).2.1 1 rfl rfl,
   (newDatastore_result (some 7) "postgres"
      (failingMigrator (GoError.errorf "dirty database")) 0).2.2.2.2.1 _ 1 rfl rfl,
   (newDatastore_result (some 7) "mysql" countingMigrator 0).2.2.2.2.2 (by decide) (by decide)⟩

/-! ## `LoadConfig` -/

/-- A database switch that ends without an error has appended the built-in flags. -/
theorem loadDatabase_flags (env : ConfigEnv) (config config2 : Config)
    (h : loadDatabase env config = (config2, none)) :
    config2.Commands.SpecialFlags = config.Commands.SpecialFlags ++ defaultSpecialFlags := by
  unfold loadDatabase at h
  split_ifs at h with c1 c2
  · cases hm : env.mkdirAll (env.dir config.Database.Path) with
    | some err => rw [hm] at h; simp at h
    | none =>
      rw [hm] at h
      cases ha : env.abs config.Database.Path with
      | error err => rw [ha] at h; simp at h
      | ok dbpath =>
        rw [ha] at h
        simp only [Prod.mk.injEq, and_true] at h
        rw [← h]
        rfl
  · simp only [Prod.mk.injEq, and_true] at h
    rw [← h]
    rfl
  · simp at h

/-- C8: the append step makes the special flags the configured list followed by the eight
built-in flags in their order, and so does every `LoadConfig` that returns without an error,
the configured list being the one left by `viper.Unmarshal`: every built-in flag and every
configured flag is in the returned list. -/
theorem loadConfig_special_flags (env : ConfigEnv) :
    (∀ config : Config,
      (appendSpecialFlags config).Commands.SpecialFlags =
        config.Commands.SpecialFlags ++
          ["-version", "-encoders", "-decoders", "-hwaccels", "-filters", "-h", "-muxers",
           "-fp_format"]) ∧
    (∀ config : Config, LoadConfig env = .ok (config, none) →
      config.Commands.SpecialFlags =
        (env.unmarshal defaultConfig).1.Commands.SpecialFlags ++
          ["-version", "-encoders", "-decoders", "-hwaccels", "-filters", "-h", "-muxers",
           "-fp_format"] ∧
      (∀ flag ∈ ["-version", "-encoders", "-decoders", "-hwaccels", "-filters", "-h", "-muxers",
          "-fp_format"], flag ∈ config.Commands.SpecialFlags) ∧
      (∀ flag ∈ (env.unmarshal defaultConfig).1.Commands.SpecialFlags,
        flag ∈ config.Commands.SpecialFlags)) := by
  refine ⟨fun _ => rfl, ?_⟩
  intro config h
  have key : config.Commands.SpecialFlags =
      (env.unmarshal defaultConfig).1.Commands.SpecialFlags ++ defaultSpecialFlags := by
    unfold LoadConfig at h
    simp only at h
    split at h
    · simp at h
    · split at h
      · simp at h
      · rename_i cfg hu
        split at h
        · simp at h
        · split at h
          · simp at h
          · rename_i log hlog path hpath
            simp only [Except.ok.injEq] at h
            have := loadDatabase_flags env _ _ h
            rw [this, hu]
  refine ⟨key, ?_, ?_⟩
  · intro flag hflag
    rw [key]
    exact List.mem_append_right _ hflag
  · intro flag hflag
    rw [key]
    exact List.mem_append_left _ hflag

/-- Witness for C8: a configuration file that sets the single special flag `-codecs`. -/
theorem loadConfig_special_flags_witness :
    ∃ config, LoadConfig (sampleEnv ["-codecs"] 2026 11 4) = .ok (config, none) ∧
      config.Commands.SpecialFlags =
        ["-codecs", "-version", "-encoders", "-decoders", "-hwaccels", "-filters", "-h",
         "-muxers", "-fp_format"] :=
  ⟨_, rfl, ((loadConfig_special_flags (sampleEnv ["-codecs"] 2026 11 4)).2 _ rfl).1⟩

/-! ### The file names -/

/-- On a non-empty string the last-character test is defined. -/
theorem lastIsSlash_of_ne_empty (s : String) (h : s ≠ "") :
    ∃ c, s.data.getLast? = some c ∧ lastIsSlash s = .ok (c == '/') := by
  cases hl : s.data.getLast? with
  | none =>
    exfalso
    apply h
    apply String.ext
    simpa using hl
  | some c => exact ⟨c, rfl, by simp [lastIsSlash, hl]⟩

/-- On a non-empty directory both file-name steps yield the directory followed by the file
name, with a `/` between them exactly when the directory does not end in `/`. -/
theorem fileName_of_ne_empty (dir stamp : String) (h : dir ≠ "") :
    ∃ c, dir.data.getLast? = some c ∧
      logFileName dir stamp =
        .ok (dir ++ (if c = '/' then "" else "/") ++ "log_rffmpeg_" ++ stamp ++ ".log") ∧
      databaseFileName dir = .ok (dir ++ (if c = '/' then "" else "/") ++ "rffmpeg.db") := by
  obtain ⟨c, hc, hs⟩ := lastIsSlash_of_ne_empty dir h
  refine ⟨c, hc, ?_, ?_⟩
  · unfold logFileName
    rw [hs]
    by_cases hcs : c = '/'
    · simp [hcs]
    · have : (c == '/') = false := by simpa using hcs
      simp [this, hcs, String.append_assoc]
  · unfold databaseFileName
    rw [hs]
    by_cases hcs : c = '/'
    · simp [hcs]
    · have : (c == '/') = false := by simpa using hcs
      simp [this, hcs, String.append_assoc]

/-- C10 (failing input): on the empty directory string the log file-name step and the
database file-name step index position `-1` and panic, and so does `LoadConfig` when the
configuration file sets the log directory to the empty string. -/
theorem fileName_empty_directory_panics :
    logFileName "" (datetime 2026 11 4) = .error (Panic.indexOutOfRange (-1) 0) ∧
    databaseFileName "" = .error (Panic.indexOutOfRange (-1) 0) ∧
    LoadConfig emptyLogEnv = .error (Panic.indexOutOfRange (-1) 0) :=
  ⟨rfl, rfl, rfl⟩


/-! ### The date stamp -/

/-- On a natural number `%d` gives `Nat.repr`. -/
theorem fmtD_natCast (n : Nat) : fmtD (n : Int) = Nat.repr n := rfl

theorem toDigits_lt_ten (n : Nat) (h : n < 10) : Nat.toDigits 10 n = [Nat.digitChar n] := by
  have h1 : n / 10 = 0 := by omega
  have h2 : n % 10 = n := by omega
  simp [Nat.toDigits, Nat.toDigitsCore, h1, h2]

theorem toDigits_two (n : Nat) (h1 : 10 ≤ n) (h2 : n < 100) : Nat.toDigits 10 n = twoDigits n := by
  obtain ⟨k, rfl⟩ : ∃ k, n = k + 1 := ⟨n - 1, by omega⟩
  have a1 : (k + 1) / 10 ≠ 0 := by omega
  have a2 : (k + 1) / 10 / 10 = 0 := by omega
  have a3 : (k + 1) / 10 % 10 = (k + 1) / 10 := by omega
  simp [Nat.toDigits, Nat.toDigitsCore, a1, a2, a3, twoDigits]

theorem toDigitsCore_step (f n : Nat) (ds : List Char) :
    Nat.toDigitsCore 10 (f + 1) n ds =
      if n / 10 = 0 then Nat.digitChar (n % 10) :: ds
      else Nat.toDigitsCore 10 f (n / 10) (Nat.digitChar (n % 10) :: ds) := by
  simp [Nat.toDigitsCore]

theorem toDigits_four (n : Nat) (h1 : 1000 ≤ n) (h2 : n < 10000) :
    Nat.toDigits 10 n = fourDigits n := by
  obtain ⟨k, rfl⟩ : ∃ k, n = k + 3 := ⟨n - 3, by omega⟩
  have a1 : (k + 3) / 10 ≠ 0 := by omega
  have a2 : (k + 3) / 10 / 10 ≠ 0 := by omega
  have a3 : (k + 3) / 10 / 10 / 10 ≠ 0 := by omega
  have a4 : (k + 3) / 10 / 10 / 10 / 10 = 0 := by omega
  have b1 : (k + 3) / 10 / 10 / 10 % 10 = (k + 3) / 1000 := by omega
  have b2 : (k + 3) / 10 / 10 % 10 = (k + 3) / 100 % 10 := by omega
  unfold Nat.toDigits fourDigits
  rw [toDigitsCore_step, if_neg a1, toDigitsCore_step, if_neg a2, toDigitsCore_step, if_neg a3,
    toDigitsCore_step, if_pos a4, b1, b2]

theorem toDigits_eight (y m d : Nat) (hy1 : 1000 ≤ y) (hy2 : y < 10000) (hm : m < 100)
    (hd : d < 100) :
    Nat.toDigits 10 (y * 10000 + m * 100 + d) = fourDigits y ++ twoDigits m ++ twoDigits d := by
  obtain ⟨k, hk⟩ : ∃ k, y * 10000 + m * 100 + d = k + 7 := ⟨y * 10000 + m * 100 + d - 7, by omega⟩
  rw [hk]
  have a1 : (k + 7) / 10 ≠ 0 := by omega
  have a2 : (k + 7) / 10 / 10 ≠ 0 := by omega
  have a3 : (k + 7) / 10 / 10 / 10 ≠ 0 := by omega
  have a4 : (k + 7) / 10 / 10 / 10 / 10 ≠ 0 := by omega
  have a5 : (k + 7) / 10 / 10 / 10 / 10 / 10 ≠ 0 := by omega
  have a6 : (k + 7) / 10 / 10 / 10 / 10 / 10 / 10 ≠ 0 := by omega
  have a7 : (k + 7) / 10 / 10 / 10 / 10 / 10 / 10 / 10 ≠ 0 := by omega
  have a8 : (k + 7) / 10 / 10 / 10 / 10 / 10 / 10 / 10 / 10 = 0 := by omega
  have b1 : (k + 7) % 10 = d % 10 := by omega
  have b2 : (k + 7) / 10 % 10 = d / 10 := by omega
  have b3 : (k + 7) / 10 / 10 % 10 = m % 10 := by omega
  have b4 : (k + 7) / 10 / 10 / 10 % 10 = m / 10 := by omega
  have b5 : (k + 7) / 10 / 10 / 10 / 10 % 10 = y % 10 := by omega
  have b6 : (k + 7) / 10 / 10 / 10 / 10 / 10 % 10 = y / 10 % 10 := by omega
  have b7 : (k + 7) / 10 / 10 / 10 / 10 / 10 / 10 % 10 = y / 100 % 10 := by omega
  have b8 : (k + 7) / 10 / 10 / 10 / 10 / 10 / 10 / 10 % 10 = y / 1000 := by omega
  unfold Nat.toDigits fourDigits twoDigits
  rw [toDigitsCore_step, if_neg a1, toDigitsCore_step, if_neg a2, toDigitsCore_step, if_neg a3,
    toDigitsCore_step, if_neg a4, toDigitsCore_step, if_neg a5, toDigitsCore_step, if_neg a6,
    toDigitsCore_step, if_neg a7, toDigitsCore_step, if_pos a8, b1, b2, b3, b4, b5, b6, b7, b8]
  rfl

theorem digitChar_inj_lt_ten : ∀ a b : Fin 10, Nat.digitChar a.1 = Nat.digitChar b.1 → a = b := by
  decide

theorem digitChar_inj (a b : Nat) (ha : a < 10) (hb : b < 10)
    (h : Nat.digitChar a = Nat.digitChar b) : a = b := by
  have := digitChar_inj_lt_ten ⟨a, ha⟩ ⟨b, hb⟩ h
  exact congrArg Fin.val this

theorem digitChar_isDigit_fin : ∀ a : Fin 10, (Nat.digitChar a.1).isDigit = true := by
  decide

theorem digitChar_isDigit (a : Nat) (ha : a < 10) : (Nat.digitChar a).isDigit = true :=
  digitChar_isDigit_fin ⟨a, ha⟩

theorem repr_data (n : Nat) : (Nat.repr n).data = Nat.toDigits 10 n := rfl

theorem datetime_data (y m d : Nat) (hy1 : 1000 ≤ y) (hy2 : y < 10000) (hm : m < 100)
    (hd : d < 100) :
    (datetime (y : Int) (m : Int) (d : Int)).data = fourDigits y ++ twoDigits m ++ twoDigits d := by
  have zero : ("0" : String).data = ['0'] := rfl
  have hY := toDigits_four y hy1 hy2
  unfold datetime
  by_cases cm : m < 10 <;> by_cases cd : d < 10
  · have c1 : ((m : Int) < 10) := by omega
    have c2 : ((d : Int) < 10) := by omega
    have e1 : m / 10 = 0 := by omega
    have e2 : d / 10 = 0 := by omega
    have e3 : m % 10 = m := by omega
    have e4 : d % 10 = d := by omega
    rw [if_pos c1, if_pos c2]
    simp only [String.data_append, fmtD_natCast, repr_data, hY, toDigits_lt_ten m cm,
      toDigits_lt_ten d cd, zero, twoDigits, e1, e2, e3, e4]
    simp [Nat.digitChar]
  · have c1 : ((m : Int) < 10) := by omega
    have c2 : ¬ ((d : Int) < 10) := by omega
    have e1 : m / 10 = 0 := by omega
    have e3 : m % 10 = m := by omega
    rw [if_pos c1, if_neg c2]
    simp only [String.data_append, fmtD_natCast, repr_data, hY, toDigits_lt_ten m cm,
      toDigits_two d (by omega) hd, zero, twoDigits, e1, e3]
    simp [Nat.digitChar]
  · have c1 : ¬ ((m : Int) < 10) := by omega
    have c2 : ((d : Int) < 10) := by omega
    have e2 : d / 10 = 0 := by omega
    have e4 : d % 10 = d := by omega
    rw [if_neg c1, if_pos c2]
    simp only [String.data_append, fmtD_natCast, repr_data, hY, toDigits_lt_ten d cd,
      toDigits_two m (by omega) hm, zero, twoDigits, e2, e4]
    simp [Nat.digitChar]
  · have c1 : ¬ ((m : Int) < 10) := by omega
    have c2 : ¬ ((d : Int) < 10) := by omega
    rw [if_neg c1, if_neg c2]
    simp only [String.data_append, fmtD_natCast, repr_data, hY,
      toDigits_two m (by omega) hm, toDigits_two d (by omega) hd, twoDigits]

theorem datetime_inj_nat (y m d y2 m2 d2 : Nat) (hy : y < 10000) (hm : m < 100) (hd : d < 100)
    (hy2 : y2 < 10000) (hm2 : m2 < 100) (hd2 : d2 < 100)
    (h : fourDigits y ++ twoDigits m ++ twoDigits d = fourDigits y2 ++ twoDigits m2 ++ twoDigits d2) :
    y = y2 ∧ m = m2 ∧ d = d2 := by
  simp only [fourDigits, twoDigits, List.cons_append, List.nil_append, List.cons.injEq,
    and_true] at h
  obtain ⟨h1, h2, h3, h4, h5, h6, h7, h8⟩ := h
  have k1 := digitChar_inj _ _ (by omega) (by omega) h1
  have k2 := digitChar_inj _ _ (by omega) (by omega) h2
  have k3 := digitChar_inj _ _ (by omega) (by omega) h3
  have k4 := digitChar_inj _ _ (by omega) (by omega) h4
  have k5 := digitChar_inj _ _ (by omega) (by omega) h5
  have k6 := digitChar_inj _ _ (by omega) (by omega) h6
  have k7 := digitChar_inj _ _ (by omega) (by omega) h7
  have k8 := digitChar_inj _ _ (by omega) (by omega) h8
  omega

/-- C9: for a year from 1000 to 9999, a month from 1 to 12 and a day from 1 to 31, the date
stamp is the decimal rendering of `year*10000 + month*100 + day`: the four digits of the year,
the two digits of the month and the two digits of the day, eight decimal digits in all, and
two such dates with the same stamp are the same date. -/
theorem datetime_eight_digits (year month day : Int) (hy : 1000 ≤ year ∧ year ≤ 9999)
    (hm : 1 ≤ month ∧ month ≤ 12) (hd : 1 ≤ day ∧ day ≤ 31) :
    datetime year month day = fmtD (year * 10000 + month * 100 + day) ∧
    (datetime year month day).data =
      fourDigits year.toNat ++ twoDigits month.toNat ++ twoDigits day.toNat ∧
    (datetime year month day).length = 8 ∧
    (∀ c ∈ (datetime year month day).data, c.isDigit = true) ∧
    (∀ year2 month2 day2 : Int, 1000 ≤ year2 ∧ year2 ≤ 9999 → 1 ≤ month2 ∧ month2 ≤ 12 →
      1 ≤ day2 ∧ day2 ≤ 31 → datetime year month day = datetime year2 month2 day2 →
      year = year2 ∧ month = month2 ∧ day = day2) := by
  obtain ⟨y, rfl⟩ : ∃ y : Nat, year = y := ⟨year.toNat, by omega⟩
  obtain ⟨m, rfl⟩ : ∃ m : Nat, month = m := ⟨month.toNat, by omega⟩
  obtain ⟨d, rfl⟩ : ∃ d : Nat, day = d := ⟨day.toNat, by omega⟩
  have hdata := datetime_data y m d (by omega) (by omega) (by omega) (by omega)
  have hnum : (y : Int) * 10000 + (m : Int) * 100 + (d : Int) = ((y * 10000 + m * 100 + d : Nat) : Int) := by
    push_cast; ring
  refine ⟨?_, ?_, ?_, ?_, ?_⟩
  · apply String.ext
    rw [hdata, hnum, fmtD_natCast, repr_data]
    exact (toDigits_eight y m d (by omega) (by omega) (by omega) (by omega)).symm
  · simpa using hdata
  · rw [String.length, hdata]
    rfl
  · rw [hdata]
    intro c hc
    simp only [fourDigits, twoDigits, List.cons_append, List.nil_append, List.mem_cons,
      List.mem_singleton, List.mem_nil_iff, or_false] at hc
    rcases hc with h | h | h | h | h | h | h | h <;> subst h <;>
      exact digitChar_isDigit _ (by omega)
  · intro year2 month2 day2 hy2 hm2 hd2 heq
    obtain ⟨y2, rfl⟩ : ∃ y : Nat, year2 = y := ⟨year2.toNat, by omega⟩
    obtain ⟨m2, rfl⟩ : ∃ m : Nat, month2 = m := ⟨month2.toNat, by omega⟩
    obtain ⟨d2, rfl⟩ : ∃ d : Nat, day2 = d := ⟨day2.toNat, by omega⟩
    have hdata2 := datetime_data y2 m2 d2 (by omega) (by omega) (by omega) (by omega)
    have := congrArg String.data heq
    rw [hdata, hdata2] at this
    have r := datetime_inj_nat y m d y2 m2 d2 (by omega) (by omega) (by omega) (by omega)
      (by omega) (by omega) this
    omega

/-- Witness for C9: the stamp of 4 November 2026. -/
theorem datetime_eight_digits_witness :
    datetime 2026 11 4 = fmtD (2026 * 10000 + 11 * 100 + 4) ∧ (datetime 2026 11 4).length = 8 := by
  have h := datetime_eight_digits 2026 11 4 (by decide) (by decide) (by decide)
  exact ⟨h.1, h.2.2.1⟩


end Rffmpeg
